import Mathlib

/-!
Shallow embedding of the spark-operator core: the pod inventory classifier
and replica reconciler from `operator/src/lib.rs`, and the cluster-state
prober from `operator/src/cluster_state.rs`.  External effects (the cluster
API client's delete call, the HTTP fetch/read/parse pipeline) are modelled
as explicit oracles; machine maps (`HashMap`, `BTreeMap`) are modelled as
association lists with first-match lookup.
-/

set_option autoImplicit false

namespace SparkOperator

/-! ## Cluster-state prober (`operator/src/cluster_state.rs`) -/

/-- One worker record of a coordinator status payload (`SparkWorkerState`). -/
structure SparkWorkerState where
  id : String
  host : String
  port : Nat
  webUiAddress : String
  cores : Nat
  memory : Nat
  memoryUsed : Nat
  memoryFree : Nat
  state : String
  lastHeartbeat : Nat
deriving DecidableEq, Repr

/-- Application lifecycle state (`SparkApplicationState`), a closed enum. -/
inductive SparkApplicationState where
  | FAILED
  | FINISHED
  | RUNNING
  | WAITING
deriving DecidableEq, Repr

/-- One application record of a coordinator status payload (`SparkApplication`). -/
structure SparkApplication where
  id : String
  startTime : Nat
  name : String
  cores : Nat
  memoryPerSlave : Nat
  submitDate : String
  state : SparkApplicationState
  duration : Nat
deriving DecidableEq, Repr

/-- Parsed snapshot from one coordinator endpoint (`SparkMasterState`). -/
structure SparkMasterState where
  url : String
  workers : List SparkWorkerState
  aliveWorkers : Nat
  activeApps : List SparkApplication
  completedApps : List SparkApplication
  status : String
deriving DecidableEq, Repr

/-- Outcome of the fetch/read/parse pipeline for a single endpoint URL:
`reqwest::get` fails, `response.text()` fails, `serde_json::from_slice`
fails, or a `SparkMasterState` is obtained. -/
inductive EndpointOutcome where
  | connFailure
  | readFailure
  | parseFailure
  | success (state : SparkMasterState)
deriving DecidableEq, Repr

/-- Embedding of `request_states`: iterate the master URLs in order; on a
connection, read, or parse failure, skip the endpoint (`continue`); on
success push the parsed state.  The `Result<_, reqwest::Error>` return type
is kept even though no branch produces the error. -/
def requestStates {E : Type} (fetch : String → EndpointOutcome) :
    List String → Except E (List SparkMasterState)
  | [] => .ok []
  | url :: rest =>
    match fetch url with
    | .connFailure => requestStates fetch rest
    | .readFailure => requestStates fetch rest
    | .parseFailure => requestStates fetch rest
    | .success s =>
      match requestStates fetch rest with
      | .ok states => .ok (s :: states)
      | .error e => .error e

/-- Embedding of `get_running_applications`: request all master states, then
for each state with a non-empty active-application list collect the
applications whose state is `RUNNING`. -/
def getRunningApplications {E : Type} (fetch : String → EndpointOutcome)
    (masterUrls : List String) : Except E (List SparkApplication) :=
  match requestStates fetch masterUrls with
  | .error e => .error e
  | .ok states =>
    .ok (states.flatMap (fun st =>
      if st.activeApps.isEmpty then []
      else st.activeApps.filter (fun a => a.state == .RUNNING)))

/-- The master states obtained from the endpoints that succeed end to end. -/
def successStates (fetch : String → EndpointOutcome) (masterUrls : List String) :
    List SparkMasterState :=
  masterUrls.filterMap (fun url =>
    match fetch url with
    | .success s => some s
    | _ => none)

theorem requestStates_eq_successStates {E : Type} (fetch : String → EndpointOutcome)
    (masterUrls : List String) :
    requestStates (E := E) fetch masterUrls = .ok (successStates fetch masterUrls) := by
  induction masterUrls with
  | nil => rfl
  | cons url rest ih =>
    cases h : fetch url <;> simp [requestStates, successStates, h] <;>
      rw [ih] <;> simp [successStates]

/-! ## Pod data model (`k8s_openapi` / `stackable_spark_crd` types, restricted
to the fields the operator reads or writes) -/

/-- Reference from a volume to the config map backing it (`ConfigMapVolumeSource`). -/
structure ConfigMapVolumeSource where
  name : Option String
deriving DecidableEq, Repr

/-- A pod volume (`Volume`), carrying its name and the backing config map. -/
structure Volume where
  name : String
  configMap : Option ConfigMapVolumeSource
deriving DecidableEq, Repr

/-- A container volume mount (`VolumeMount`). -/
structure VolumeMount where
  mountPath : String
  name : String
deriving DecidableEq, Repr

/-- A pod container (`Container`), restricted to the fields `build_containers` sets. -/
structure Container where
  image : Option String
  name : String
  command : Option (List String)
  volumeMounts : Option (List VolumeMount)
deriving DecidableEq, Repr

/-- The pod specification (`PodSpec`); tolerations come from the external
`create_tolerations` helper and are modelled opaquely. -/
structure PodSpec where
  tolerations : Option (List String)
  containers : List Container
  volumes : Option (List Volume)
deriving DecidableEq, Repr

/-- Object metadata (`ObjectMeta`): labels are a `BTreeMap` modelled as an
association list, the owner reference built by the external
`object_to_owner_reference` helper is modelled by the owning cluster name. -/
structure ObjectMeta where
  labels : Option (List (String × String))
  name : Option String
  namespace' : Option String
  ownerReferences : Option (List String)
deriving DecidableEq, Repr

/-- A workload unit (`Pod`). -/
structure Pod where
  metadata : ObjectMeta
  spec : Option PodSpec
deriving DecidableEq, Repr

instance : Inhabited Pod := ⟨⟨⟨none, none, none, none⟩, none⟩⟩

/-- The `spark.stackable.de/hash` label key (constant `HASH` in `lib.rs`). -/
def HASH : String := "spark.stackable.de/hash"

/-- The `spark.stackable.de/type` label key (constant `TYPE` in `lib.rs`). -/
def TYPE : String := "spark.stackable.de/type"

/-- Role of a workload unit (`SparkNodeType` from the crd crate): a closed set. -/
inductive SparkNodeType where
  | master
  | worker
  | historyServer
deriving DecidableEq, Repr

/-- Modelled from the spec: `SparkNodeType::as_str` lives in the
`stackable-spark-crd` crate, which is not among the given sources; the spec
fixes a closed set of role strings, one per role. -/
def SparkNodeType.asStr : SparkNodeType → String
  | .master => "master"
  | .worker => "worker"
  | .historyServer => "history-server"

/-- Modelled from the spec: `SparkNodeType::from_str` (crd crate, not among
the given sources) parses exactly the fixed role strings and fails on
anything else. -/
def SparkNodeType.fromStr (s : String) : Option SparkNodeType :=
  if s = "master" then some .master
  else if s = "worker" then some .worker
  else if s = "history-server" then some .historyServer
  else none

/-- Modelled from the spec: the role-specific start command
(`SparkNodeType::get_command`, crd crate, not among the given sources). -/
def SparkNodeType.getCommand (nodeType : SparkNodeType) : String :=
  "sbin/start-" ++ nodeType.asStr ++ ".sh"

/-- Modelled from the spec: the desired selectors of one role
(`SparkNode` in the crd crate): ConfigurationHash to desired instance count. -/
structure SparkNode where
  selectors : List (String × Nat)
deriving DecidableEq, Repr

/-- Modelled from the spec: the cluster resource spec (`SparkClusterSpec`,
crd crate).  `master` and `worker` are mandatory; `history_server` is
optional, as witnessed by `self.spec.history_server.as_ref().unwrap()` in
`lib.rs`. -/
structure SparkClusterSpec where
  master : SparkNode
  worker : SparkNode
  historyServer : Option SparkNode
deriving DecidableEq, Repr

/-- Modelled from the spec: `SparkClusterSpec::get_hashed_selectors` (crd
crate) returns the DesiredTopology as a map from role to the role's
hash-to-count map; a role absent from the spec has no entry. -/
def getHashedSelectors (spec : SparkClusterSpec) : SparkNodeType → Option (List (String × Nat))
  | .master => some spec.master.selectors
  | .worker => some spec.worker.selectors
  | .historyServer => spec.historyServer.map SparkNode.selectors

/-! ## Pod inventory classifier (`read_existing_pod_information`) -/

/-- Embedding of `sort_pod_info`: push the pod onto the bucket for `hash`,
creating the bucket if absent. -/
def sortPodInfo (pod : Pod) (hashedPods : List (String × List Pod)) (hash : String) :
    List (String × List Pod) :=
  if (hashedPods.lookup hash).isSome then
    hashedPods.map (fun kv => if kv.1 = hash then (kv.1, kv.2 ++ [pod]) else kv)
  else
    hashedPods ++ [(hash, [pod])]

/-- The three per-role hash maps built by the classification loop (the local
variables `master`, `worker`, `history_server`). -/
structure PodMaps where
  master : List (String × List Pod)
  worker : List (String × List Pod)
  historyServer : List (String × List Pod)
deriving DecidableEq, Repr

def PodMaps.empty : PodMaps := ⟨[], [], []⟩

/-- Dispatch of the `match spark_node_type` arm that sorts a valid pod into
the map of its role. -/
def PodMaps.sortInto (maps : PodMaps) (nodeType : SparkNodeType) (hash : String) (pod : Pod) :
    PodMaps :=
  match nodeType with
  | .master => { maps with master := sortPodInfo pod maps.master hash }
  | .worker => { maps with worker := sortPodInfo pod maps.worker hash }
  | .historyServer => { maps with historyServer := sortPodInfo pod maps.historyServer hash }

def PodMaps.forType (maps : PodMaps) : SparkNodeType → List (String × List Pod)
  | .master => maps.master
  | .worker => maps.worker
  | .historyServer => maps.historyServer

/-- The bucket of a (role, hash) pair, empty when absent. -/
def bucketOf (maps : PodMaps) (nodeType : SparkNodeType) (hash : String) : List Pod :=
  ((maps.forType nodeType).lookup hash).getD []

/-- Result of the classification `while` loop: the maps built so far plus the
pods whose deletion was requested, or the error of a failed delete call. -/
inductive LoopResult (E : Type) where
  | done (maps : PodMaps) (deleted : List Pod)
  | err (e : E)
deriving DecidableEq, Repr

/-- Embedding of the `while let Some(pod) = existing_pods.pop()` loop of
`read_existing_pod_information`.  The input list is in pop order (the caller
passes the reversed pod list).  The cluster API delete call is the oracle
`del`; `?` propagation surfaces its error, and a successful delete is
followed by `break`, ending the loop.  A pod with no labels map at all hits
the `TODO` branch: nothing happens and the loop continues. -/
def classifyLoop {E : Type} (del : Pod → Except E Unit) (spec : SparkClusterSpec) :
    List Pod → PodMaps → List Pod → LoopResult E
  | [], maps, deleted => .done maps deleted
  | pod :: rest, maps, deleted =>
    match pod.metadata.labels with
    | none => classifyLoop del spec rest maps deleted
    | some labels =>
      match labels.lookup HASH, labels.lookup TYPE with
      | some hash, some nodeTypeStr =>
        match SparkNodeType.fromStr nodeTypeStr with
        | none =>
          match del pod with
          | .ok _ => .done maps (deleted ++ [pod])
          | .error e => .err e
        | some nodeType =>
          match getHashedSelectors spec nodeType with
          | some hashed =>
            if (hashed.lookup hash).isSome then
              classifyLoop del spec rest (maps.sortInto nodeType hash pod) deleted
            else
              match del pod with
              | .ok _ => .done maps (deleted ++ [pod])
              | .error e => .err e
          | none => classifyLoop del spec rest (maps.sortInto nodeType hash pod) deleted
      | _, _ =>
        match del pod with
        | .ok _ => .done maps (deleted ++ [pod])
        | .error e => .err e

/-- The classified inventory (`NodeInformation`). -/
structure NodeInformation where
  master : List (String × List Pod)
  worker : List (String × List Pod)
  historyServer : Option (List (String × List Pod))
deriving DecidableEq, Repr

/-- Failure of one classification pass: a propagated cluster API client
error, or the panic of an `unwrap` on `None`. -/
inductive PassError (E : Type) where
  | client (e : E)
  | panicked
deriving DecidableEq, Repr

/-- Embedding of `read_existing_pod_information`: run the classification loop
over the pods in pop order, build the `NodeInformation` (its history-server
map is always `Some`), then emit the status log line — which evaluates
`self.spec.history_server.as_ref().unwrap()` and hence panics when the
history-server role is absent from the cluster spec.  On success returns the
node information together with the pods whose deletion was requested. -/
def readExistingPodInformation {E : Type} (del : Pod → Except E Unit)
    (spec : SparkClusterSpec) (existingPods : List Pod) :
    Except (PassError E) (NodeInformation × List Pod) :=
  match classifyLoop del spec existingPods.reverse PodMaps.empty [] with
  | .err e => .error (.client e)
  | .done maps deleted =>
    match spec.historyServer with
    | some _ => .ok (⟨maps.master, maps.worker, some maps.historyServer⟩, deleted)
    | none => .error .panicked

/-! ## Replica reconciler (`reconcile_node`, `reconcile_cluster`) -/

/-- A create or delete action issued against the cluster API client. -/
inductive Action where
  | delete (pod : Pod)
  | create (nodeType : SparkNodeType) (hash : String)
deriving DecidableEq, Repr

def Action.isDelete : Action → Bool
  | .delete _ => true
  | .create _ _ => false

def Action.isCreate : Action → Bool
  | .delete _ => false
  | .create _ _ => true

/-- Embedding of the body of `reconcile_node`'s `for (hash, selector)` loop
for a single bucket: `current_count` starts at zero, is set to the bucket
length when the hash has a bucket, one delete of the bucket's first pod is
issued when the count exceeds the desired count, and one create is issued
when the count falls short of it. -/
def reconcileBucket (nodes : List (String × List Pod)) (nodeType : SparkNodeType)
    (hash : String) (specPodCount : Nat) : List Action :=
  match nodes.lookup hash with
  | some pods =>
    (if pods.length > specPodCount then [Action.delete pods.headI] else [])
      ++ (if pods.length < specPodCount then [Action.create nodeType hash] else [])
  | none =>
    if 0 < specPodCount then [Action.create nodeType hash] else []

/-- Embedding of `reconcile_node`: when the desired topology has no entry for
the role, the role is skipped; otherwise every (hash, selector) entry of the
role's desired map is reconciled in order. -/
def reconcileNode (spec : SparkClusterSpec) (nodeType : SparkNodeType)
    (nodes : List (String × List Pod)) : List Action :=
  match getHashedSelectors spec nodeType with
  | none => []
  | some hashedPods =>
    hashedPods.flatMap (fun hs => reconcileBucket nodes nodeType hs.1 hs.2)

/-- Continuation signal (`ReconcileFunctionAction`). -/
inductive ReconcileFunctionAction where
  | Continue
  | Requeue (secs : Nat)
  | Done
deriving DecidableEq, Repr

/-- Embedding of `reconcile_cluster`: with node information available, the
roles are reconciled in the fixed order Master, Worker, HistoryServer (the
node information's history-server map, always `Some`, guards the third). -/
def reconcileCluster (spec : SparkClusterSpec) (nodeInformation : Option NodeInformation) :
    ReconcileFunctionAction × List Action :=
  match nodeInformation with
  | none => (.Done, [])
  | some info =>
    let masterActs := reconcileNode spec .master info.master
    let workerActs := reconcileNode spec .worker info.worker
    match info.historyServer with
    | some hs => (.Continue, masterActs ++ workerActs ++ reconcileNode spec .historyServer hs)
    | none => (.Continue, masterActs ++ workerActs)

/-! ## Pod construction (`build_pod` and helpers) -/

/-- Embedding of `create_pod_name`: cluster name, role string, hash and a
fresh unique suffix (a UUID field in the source), joined by dashes. -/
def createPodName (clusterName : String) (nodeType : SparkNodeType) (hash uuid : String) :
    String :=
  clusterName ++ "-" ++ nodeType.asStr ++ "-" ++ hash ++ "-" ++ uuid

/-- Embedding of `create_config_map_name`: cluster name, role string and hash
joined by dashes. -/
def createConfigMapName (clusterName : String) (nodeType : SparkNodeType) (hash : String) :
    String :=
  clusterName ++ "-" ++ nodeType.asStr ++ "-" ++ hash

/-- Embedding of `build_labels`: the role tag and the hash tag. -/
def buildLabels (nodeType : SparkNodeType) (hash : String) : List (String × String) :=
  [(TYPE, nodeType.asStr), (HASH, hash)]

/-- Embedding of `build_containers`: one Spark container with a config-volume
and a data-volume mount, and the two volumes backed by the config maps named
with the `-config` and `-data` suffixes over the shared name base. -/
def buildContainers (clusterName : String) (nodeType : SparkNodeType) (hash : String) :
    List Container × List Volume :=
  let containers : List Container := [
    { image := some "stackable/spark:3.0.1",
      name := "spark",
      command := some [nodeType.getCommand],
      volumeMounts := some [
        { mountPath := "conf", name := "config-volume" },
        { mountPath := "/tmp/spark-events", name := "data-volume" }] }]
  let cmNameBase := createConfigMapName clusterName nodeType hash
  let volumes : List Volume := [
    { name := "config-volume", configMap := some { name := some (cmNameBase ++ "-config") } },
    { name := "data-volume", configMap := some { name := some (cmNameBase ++ "-data") } }]
  (containers, volumes)

/-- Embedding of `build_pod_spec`. -/
def buildPodSpec (clusterName : String) (nodeType : SparkNodeType) (hash : String) : PodSpec :=
  let cv := buildContainers clusterName nodeType hash
  { tolerations := some [], containers := cv.1, volumes := some cv.2 }

/-- Embedding of `build_pod_metadata`. -/
def buildPodMetadata (clusterName namespaceName uuid : String) (nodeType : SparkNodeType)
    (hash : String) : ObjectMeta :=
  { labels := some (buildLabels nodeType hash),
    name := some (createPodName clusterName nodeType hash uuid),
    namespace' := some namespaceName,
    ownerReferences := some [clusterName] }

/-- Embedding of `build_pod`. -/
def buildPod (clusterName namespaceName uuid : String) (nodeType : SparkNodeType)
    (hash : String) : Pod :=
  { metadata := buildPodMetadata clusterName namespaceName uuid nodeType hash,
    spec := some (buildPodSpec clusterName nodeType hash) }

/-! ## Classification loop analysis -/

/-- A pod on which the classification loop's current step sorts the pod into
the inventory and continues: both identity labels present, the role tag
parses, and the hash is either present in the role's desired key set or the
role has no desired key set at all. -/
def stepClassifies (spec : SparkClusterSpec) (pod : Pod) : Bool :=
  match pod.metadata.labels with
  | none => false
  | some labels =>
    match labels.lookup HASH, labels.lookup TYPE with
    | some hash, some nodeTypeStr =>
      match SparkNodeType.fromStr nodeTypeStr with
      | none => false
      | some nodeType =>
        match getHashedSelectors spec nodeType with
        | some hashed => (hashed.lookup hash).isSome
        | none => true
    | _, _ => false

/-- A pod on which the loop's current step continues without a delete call:
it is either sorted into the inventory, or it has no labels map at all and
hits the do-nothing `TODO` branch. -/
def stepContinues (spec : SparkClusterSpec) (pod : Pod) : Bool :=
  pod.metadata.labels.isNone || stepClassifies spec pod

/-- A corrupt pod: it carries a labels map, but is missing an identity
label, or its role tag does not parse, or its hash is stale.  The loop
issues a delete request for exactly these pods. -/
def isCorrupt (spec : SparkClusterSpec) (pod : Pod) : Bool :=
  pod.metadata.labels.isSome && !stepClassifies spec pod

/-- A pod whose identity labels place it in the (role, hash) bucket. -/
def belongsTo (nodeType : SparkNodeType) (hash : String) (pod : Pod) : Bool :=
  match pod.metadata.labels with
  | none => false
  | some labels =>
    labels.lookup HASH == some hash
      && (labels.lookup TYPE).bind SparkNodeType.fromStr == some nodeType

theorem lookup_map_update (pod : Pod) (m : List (String × List Pod)) (h0 h : String) :
    (m.map (fun kv => if kv.1 = h0 then (kv.1, kv.2 ++ [pod]) else kv)).lookup h =
      if h = h0 then (m.lookup h0).map (fun v => v ++ [pod]) else m.lookup h := by
  induction m with
  | nil => simp only [List.map_nil, List.lookup_nil, Option.map_none]; split <;> rfl
  | cons kv rest ih =>
    obtain ⟨k, v⟩ := kv
    by_cases hk : k = h0
    · subst hk
      by_cases hh : h = k
      · subst hh
        simp [List.lookup_cons]
      · have hb : (h == k) = false := beq_false_of_ne hh
        simp [List.lookup_cons, hb, hh, ih]
    · by_cases hh : h = k
      · subst hh
        have hb : (h == h0) = false := beq_false_of_ne hk
        simp [List.lookup_cons, hk, hb]
      · have hbk : (h == k) = false := beq_false_of_ne hh
        have hb0 : (h0 == k) = false := beq_false_of_ne (fun e => hk e.symm)
        simp [List.lookup_cons, hk, hbk, hb0, ih]

theorem lookup_append_singleton (m : List (String × List Pod)) (h0 h : String) (pod : Pod) :
    (m ++ [(h0, [pod])]).lookup h =
      match m.lookup h with
      | some v => some v
      | none => if h = h0 then some [pod] else none := by
  induction m with
  | nil =>
    by_cases hh : h = h0
    · simp [List.lookup_cons, hh]
    · have hb : (h == h0) = false := beq_false_of_ne hh
      simp [List.lookup_cons, hb, hh]
  | cons kv rest ih =>
    obtain ⟨k, v⟩ := kv
    by_cases hh : h = k
    · subst hh
      simp [List.lookup_cons]
    · have hb : (h == k) = false := beq_false_of_ne hh
      simp [List.lookup_cons, hb, ih]

theorem lookup_sortPodInfo (pod : Pod) (m : List (String × List Pod)) (h0 h : String) :
    (sortPodInfo pod m h0).lookup h =
      if h = h0 then some (((m.lookup h0).getD []) ++ [pod]) else m.lookup h := by
  unfold sortPodInfo
  cases hs : m.lookup h0 with
  | some v =>
    simp only [hs, Option.isSome_some, if_true, lookup_map_update]
    split <;> simp [hs]
  | none =>
    simp only [hs, Option.isSome_none, Bool.false_eq_true, if_false,
      lookup_append_singleton]
    by_cases hh : h = h0
    · subst hh
      simp [hs]
    · cases hm : m.lookup h <;> simp [hh, hm]

theorem bucketOf_sortInto (maps : PodMaps) (nodeType0 : SparkNodeType) (h0 : String)
    (pod : Pod) (nodeType : SparkNodeType) (h : String) :
    bucketOf (maps.sortInto nodeType0 h0 pod) nodeType h =
      bucketOf maps nodeType h
        ++ (if nodeType = nodeType0 ∧ h = h0 then [pod] else []) := by
  cases nodeType0 <;> cases nodeType <;>
    simp only [PodMaps.sortInto, PodMaps.forType, bucketOf, lookup_sortPodInfo] <;>
    by_cases hh : h = h0 <;>
    simp [hh]

theorem bucketOf_empty (nodeType : SparkNodeType) (h : String) :
    bucketOf PodMaps.empty nodeType h = [] := by
  cases nodeType <;> rfl

/-- When every pod of the processing list is classifiable, the loop never
issues a delete and every (role, hash) bucket collects, in processing order,
exactly the pods belonging to it. -/
theorem classifyLoop_all_classified {E : Type} (del : Pod → Except E Unit)
    (spec : SparkClusterSpec) (l : List Pod)
    (hall : ∀ p ∈ l, stepClassifies spec p = true) :
    ∀ maps deleted, ∃ maps',
      classifyLoop del spec l maps deleted = .done maps' deleted ∧
        ∀ nodeType h, bucketOf maps' nodeType h
          = bucketOf maps nodeType h ++ l.filter (belongsTo nodeType h) := by
  induction l with
  | nil => exact fun maps deleted => ⟨maps, rfl, by simp⟩
  | cons p rest ih =>
    intro maps deleted
    have hp := hall p (by simp)
    cases hlab : p.metadata.labels with
    | none => simp [stepClassifies, hlab] at hp
    | some labels =>
      cases hH : labels.lookup HASH with
      | none => simp [stepClassifies, hlab, hH] at hp
      | some hash =>
        cases hT : labels.lookup TYPE with
        | none => simp [stepClassifies, hlab, hH, hT] at hp
        | some ts =>
          cases hF : SparkNodeType.fromStr ts with
          | none => simp [stepClassifies, hlab, hH, hT, hF] at hp
          | some nodeType0 =>
            have hrest : ∀ q ∈ rest, stepClassifies spec q = true :=
              fun q hq => hall q (by simp [hq])
            have hbel : ∀ nodeType h, belongsTo nodeType h p
                = (decide (nodeType = nodeType0) && decide (h = hash)) := by
              intro nodeType h
              simp only [belongsTo, hlab, hH, hT, Option.some_bind, hF]
              rw [Bool.eq_iff_iff]
              simp only [Bool.and_eq_true, beq_iff_eq, decide_eq_true_eq,
                Option.some.injEq]
              constructor
              · rintro ⟨h1, h2⟩
                exact ⟨h2.symm, h1.symm⟩
              · rintro ⟨h1, h2⟩
                exact ⟨h2.symm, h1.symm⟩
            have hstep : ∀ nextMaps,
                classifyLoop del spec (p :: rest) maps deleted
                    = classifyLoop del spec rest nextMaps deleted →
                (∀ nodeType h, bucketOf nextMaps nodeType h
                    = bucketOf maps nodeType h
                      ++ (if nodeType = nodeType0 ∧ h = hash then [p] else [])) →
                ∃ maps', classifyLoop del spec (p :: rest) maps deleted
                      = .done maps' deleted ∧
                    ∀ nodeType h, bucketOf maps' nodeType h
                      = bucketOf maps nodeType h
                        ++ (p :: rest).filter (belongsTo nodeType h) := by
              intro nextMaps heq hbuck
              obtain ⟨maps', hdone, hb⟩ := ih hrest nextMaps deleted
              refine ⟨maps', by rw [heq, hdone], ?_⟩
              intro nodeType h
              rw [hb, hbuck, List.filter_cons, hbel, List.append_assoc]
              by_cases hc : nodeType = nodeType0 ∧ h = hash
              · simp [hc.1, hc.2]
              · have h1 : (decide (nodeType = nodeType0) && decide (h = hash)) = false := by
                  rcases Decidable.not_and_iff_or_not.mp hc with hx | hx <;> simp [hx]
                simp [hc, h1]
            cases hG : getHashedSelectors spec nodeType0 with
            | some hashed =>
              have hin : (hashed.lookup hash).isSome = true := by
                simpa [stepClassifies, hlab, hH, hT, hF, hG] using hp
              exact hstep (maps.sortInto nodeType0 hash p)
                (by simp [classifyLoop, hlab, hH, hT, hF, hG, hin])
                (fun nodeType h => bucketOf_sortInto maps nodeType0 hash p nodeType h)
            | none =>
              exact hstep (maps.sortInto nodeType0 hash p)
                (by simp [classifyLoop, hlab, hH, hT, hF, hG])
                (fun nodeType h => bucketOf_sortInto maps nodeType0 hash p nodeType h)

/-! ## Concrete inputs used by closed evaluations and witnesses -/

/-- A delete oracle that always succeeds. -/
def okDelete : Pod → Except String Unit := fun _ => .ok ()

/-- A delete oracle that always fails. -/
def failDelete : Pod → Except String Unit := fun _ => .error "boom"

/-- A pod whose metadata has no labels map at all. -/
def podWithoutLabels : Pod := ⟨⟨none, some "p", none, none⟩, none⟩

/-- A pod carrying only the role tag, missing the hash tag. -/
def podMissingHash (name : String) : Pod :=
  ⟨⟨some [(TYPE, "master")], some name, none, none⟩, none⟩

/-- A pod carrying both identity labels. -/
def sparkPod (name hash roleStr : String) : Pod :=
  ⟨⟨some [(HASH, hash), (TYPE, roleStr)], some name, none, none⟩, none⟩

/-- A cluster spec desiring one master of hash `h1`, with a (trivial)
history-server role configured. -/
def specWithHistory : SparkClusterSpec := ⟨⟨[("h1", 1)]⟩, ⟨[]⟩, some ⟨[]⟩⟩

/-- A cluster spec desiring two masters of hash `h1`, with a history-server
role configured. -/
def specTwoMasters : SparkClusterSpec := ⟨⟨[("h1", 2)]⟩, ⟨[]⟩, some ⟨[]⟩⟩

/-- A cluster spec with the history-server role entirely absent. -/
def specWithoutHistory : SparkClusterSpec := ⟨⟨[("h1", 1)]⟩, ⟨[]⟩, none⟩

def podA : Pod := sparkPod "a" "h1" "master"

def podB : Pod := sparkPod "b" "h1" "master"

/-! ## Claim theorems -/

/-- C2: for every endpoint list and every assignment of per-endpoint
outcomes (connection failure, body-read failure, parse failure, or a parsed
MasterState), `get_running_applications` returns exactly the Running-state
applications aggregated, in order, from the active-application lists of the
successfully parsed MasterStates; failed endpoints contribute nothing, and
completed or non-Running applications are never included. -/
theorem probe_aggregates_running_from_successes {E : Type}
    (fetch : String → EndpointOutcome) (masterUrls : List String) :
    getRunningApplications (E := E) fetch masterUrls =
      .ok ((successStates fetch masterUrls).flatMap
        (fun st => st.activeApps.filter (fun a => a.state == .RUNNING))) := by
  have h : ∀ st : SparkMasterState,
      (if st.activeApps.isEmpty then ([] : List SparkApplication)
        else st.activeApps.filter (fun a => a.state == .RUNNING))
        = st.activeApps.filter (fun a => a.state == .RUNNING) := by
    intro st
    cases h : st.activeApps <;> simp [h]
  unfold getRunningApplications
  rw [requestStates_eq_successStates]
  simp only [h]

/-- C6: `get_running_applications` returns a success value on every input,
no matter how many endpoints fail to connect, read, or parse; individual
endpoint failures are absorbed. -/
theorem probe_never_fails {E : Type} (fetch : String → EndpointOutcome)
    (masterUrls : List String) :
    ∃ apps, getRunningApplications (E := E) fetch masterUrls = .ok apps := by
  unfold getRunningApplications
  rw [requestStates_eq_successStates]
  exact ⟨_, rfl⟩

/-- Helper: closed form of `reconcileBucket` by comparison of the observed
bucket length with the desired count. -/
theorem reconcileBucket_eq (nodes : List (String × List Pod)) (nodeType : SparkNodeType)
    (hash : String) (n : Nat) :
    reconcileBucket nodes nodeType hash n =
      if n < ((nodes.lookup hash).getD []).length then
        [Action.delete ((nodes.lookup hash).getD []).headI]
      else if ((nodes.lookup hash).getD []).length < n then
        [Action.create nodeType hash]
      else [] := by
  unfold reconcileBucket
  cases h : nodes.lookup hash with
  | none => simp
  | some pods =>
    simp only [Option.getD_some]
    rcases Nat.lt_trichotomy n pods.length with hlt | heq | hgt
    · simp [hlt, Nat.lt_asymm hlt]
    · simp [heq, Nat.lt_irrefl]
    · simp [hgt, Nat.lt_asymm hgt]

/-- C3: in one reconciliation pass, each (role, hash) bucket of the desired
topology gets exactly one delete action when the observed count exceeds the
desired count, exactly one create action when it falls short, and no action
when they agree — never more than one unit changed per bucket per pass. -/
theorem one_action_per_bucket_per_pass (nodes : List (String × List Pod))
    (nodeType : SparkNodeType) (hash : String) (n : Nat) :
    (reconcileBucket nodes nodeType hash n =
      if ((nodes.lookup hash).getD []).length > n then
        [Action.delete ((nodes.lookup hash).getD []).headI]
      else if ((nodes.lookup hash).getD []).length < n then
        [Action.create nodeType hash]
      else [])
    ∧ (reconcileBucket nodes nodeType hash n).length ≤ 1 := by
  rw [reconcileBucket_eq]
  constructor
  · rfl
  · split_ifs <;> simp

/-- C7: within one pass, the reconciler never issues both a delete and a
create for the same (role, hash) bucket: the delete branch fires only when
the observed count exceeds the desired count and the create branch only when
it falls short, and these are mutually exclusive. -/
theorem never_delete_and_create_same_bucket (nodes : List (String × List Pod))
    (nodeType : SparkNodeType) (hash : String) (n : Nat) :
    ((reconcileBucket nodes nodeType hash n).any Action.isDelete
      && (reconcileBucket nodes nodeType hash n).any Action.isCreate) = false := by
  rw [reconcileBucket_eq]
  split_ifs <;> simp [Action.isDelete, Action.isCreate]

/-- C1 fails on the code (the code contradicts its own `TODO` note): a pod
with no labels map at all — hence missing both identity labels — is neither
scheduled for deletion (the returned deletion list is empty) nor classified;
and with two pods each missing the hash label, only the first-processed one
is deleted because the loop `break`s, leaving the other unprocessed. -/
theorem corrupt_pods_not_all_deleted :
    readExistingPodInformation okDelete specWithHistory [podWithoutLabels]
        = .ok (⟨[], [], some []⟩, [])
    ∧ readExistingPodInformation okDelete specWithHistory
        [podMissingHash "a", podMissingHash "b"]
        = .ok (⟨[], [], some []⟩, [podMissingHash "b"]) := by
  exact ⟨rfl, rfl⟩

/-- C4 fails on the code: with the history-server role entirely absent from
the cluster spec, the pass does not skip the role and complete — the status
log line of `read_existing_pod_information` unwraps
`self.spec.history_server` (a `None`) and panics, before reconciliation is
even reached. -/
theorem absent_history_role_panics :
    readExistingPodInformation okDelete specWithoutHistory [] = .error .panicked := rfl

/-- C9: every created workload unit is named
clusterName-role-hash-uniqueSuffix, carries the role and hash identity
labels, and its pod spec holds one container whose two volume mounts are
backed, through the config-volume and data-volume volumes, by the config
maps named clusterName-role-hash-config and clusterName-role-hash-data. -/
theorem generated_pod_naming_and_labels (clusterName namespaceName uuid : String)
    (nodeType : SparkNodeType) (hash : String) :
    (buildPod clusterName namespaceName uuid nodeType hash).metadata.name
        = some (clusterName ++ "-" ++ nodeType.asStr ++ "-" ++ hash ++ "-" ++ uuid)
    ∧ (((buildPod clusterName namespaceName uuid nodeType hash).metadata.labels).getD
        []).lookup TYPE = some nodeType.asStr
    ∧ (((buildPod clusterName namespaceName uuid nodeType hash).metadata.labels).getD
        []).lookup HASH = some hash
    ∧ (buildPod clusterName namespaceName uuid nodeType hash).spec = some
        { tolerations := some [],
          containers := [
            { image := some "stackable/spark:3.0.1",
              name := "spark",
              command := some [nodeType.getCommand],
              volumeMounts := some [
                { mountPath := "conf", name := "config-volume" },
                { mountPath := "/tmp/spark-events", name := "data-volume" }] }],
          volumes := some [
            { name := "config-volume",
              configMap := some { name := some (clusterName ++ "-" ++ nodeType.asStr
                ++ "-" ++ hash ++ "-config") } },
            { name := "data-volume",
              configMap := some { name := some (clusterName ++ "-" ++ nodeType.asStr
                ++ "-" ++ hash ++ "-data") } }] } :=
  ⟨rfl, rfl, rfl, rfl⟩

/-- The bucket of a (role, hash) pair in the classification result; empty on
error or when the bucket is absent. -/
def inventoryBucket {E : Type} (r : Except (PassError E) (NodeInformation × List Pod))
    (nodeType : SparkNodeType) (hash : String) : List Pod :=
  match r with
  | .error _ => []
  | .ok (ni, _) =>
    match nodeType with
    | .master => (ni.master.lookup hash).getD []
    | .worker => (ni.worker.lookup hash).getD []
    | .historyServer =>
      match ni.historyServer with
      | some m => (m.lookup hash).getD []
      | none => []

theorem inventoryBucket_ok {E : Type} (maps : PodMaps) (dels : List Pod)
    (nodeType : SparkNodeType) (hash : String) :
    inventoryBucket (E := E)
        (.ok (⟨maps.master, maps.worker, some maps.historyServer⟩, dels)) nodeType hash
      = bucketOf maps nodeType hash := by
  cases nodeType <;> rfl

/-- C5 fails on the code: with two valid units of the same (role, hash)
observed in the order a, b, the resulting bucket is b, a — the loop pops
from the back of the observed list, so bucket order is the reverse of
discovery order, and is not sorted by unit identity either (b sorts after
a). -/
theorem classify_reverses_discovery_order :
    inventoryBucket (readExistingPodInformation okDelete specTwoMasters [podA, podB])
        .master "h1" = [podB, podA]
    ∧ [podB, podA] ≠ ([podA, podB] : List Pod) := by
  refine ⟨rfl, ?_⟩
  decide

/-- C5 as amended: for every list of observed units all of which classify,
the classifier appends valid units to the (role, hash) bucket in reverse of
discovery order — the observed list is consumed from the back — which is
deterministic in the input; no sorting by unit identity is performed. -/
theorem classify_buckets_reverse_order {E : Type} (del : Pod → Except E Unit)
    (spec : SparkClusterSpec) (pods : List Pod)
    (hHS : spec.historyServer.isSome = true)
    (hall : ∀ p ∈ pods, stepClassifies spec p = true)
    (nodeType : SparkNodeType) (hash : String) :
    inventoryBucket (readExistingPodInformation del spec pods) nodeType hash
      = pods.reverse.filter (belongsTo nodeType hash) := by
  have hrev : ∀ p ∈ pods.reverse, stepClassifies spec p = true :=
    fun p hp => hall p (List.mem_reverse.mp hp)
  obtain ⟨maps', hdone, hb⟩ :=
    classifyLoop_all_classified del spec pods.reverse hrev PodMaps.empty []
  unfold readExistingPodInformation
  rw [hdone]
  cases hs : spec.historyServer with
  | none => rw [hs] at hHS; simp at hHS
  | some sn =>
    rw [inventoryBucket_ok, hb, bucketOf_empty]
    simp

/-- Witness for the amended C5 at a concrete input: the bucket equals the
reverse-order filter, even under an always-failing delete oracle (no delete
is ever requested for valid units). -/
theorem classify_buckets_reverse_order_witness :
    inventoryBucket (readExistingPodInformation failDelete specTwoMasters [podA, podB])
        .master "h1"
      = ([podA, podB] : List Pod).reverse.filter (belongsTo .master "h1") :=
  classify_buckets_reverse_order failDelete specTwoMasters [podA, podB] rfl
    (by decide) .master "h1"

theorem classifyLoop_step_continues {E : Type} (del : Pod → Except E Unit)
    (spec : SparkClusterSpec) (p : Pod) (hp : stepContinues spec p = true)
    (l : List Pod) (maps : PodMaps) (deleted : List Pod) :
    ∃ maps', classifyLoop del spec (p :: l) maps deleted
      = classifyLoop del spec l maps' deleted := by
  cases hlab : p.metadata.labels with
  | none => exact ⟨maps, by simp [classifyLoop, hlab]⟩
  | some labels =>
    have hcls : stepClassifies spec p = true := by
      simpa [stepContinues, hlab] using hp
    cases hH : labels.lookup HASH with
    | none => simp [stepClassifies, hlab, hH] at hcls
    | some hash =>
      cases hT : labels.lookup TYPE with
      | none => simp [stepClassifies, hlab, hH, hT] at hcls
      | some ts =>
        cases hF : SparkNodeType.fromStr ts with
        | none => simp [stepClassifies, hlab, hH, hT, hF] at hcls
        | some nodeType0 =>
          cases hG : getHashedSelectors spec nodeType0 with
          | some hashed =>
            have hin : (hashed.lookup hash).isSome = true := by
              simpa [stepClassifies, hlab, hH, hT, hF, hG] using hcls
            exact ⟨maps.sortInto nodeType0 hash p,
              by simp [classifyLoop, hlab, hH, hT, hF, hG, hin]⟩
          | none =>
            exact ⟨maps.sortInto nodeType0 hash p,
              by simp [classifyLoop, hlab, hH, hT, hF, hG]⟩

theorem classifyLoop_corrupt_delete_error {E : Type} (del : Pod → Except E Unit)
    (spec : SparkClusterSpec) (p : Pod) (e : E)
    (hc : isCorrupt spec p = true) (hd : del p = .error e)
    (l : List Pod) (maps : PodMaps) (deleted : List Pod) :
    classifyLoop del spec (p :: l) maps deleted = .err e := by
  cases hlab : p.metadata.labels with
  | none => simp [isCorrupt, hlab] at hc
  | some labels =>
    have hncls : stepClassifies spec p = false := by
      have h1 := hc
      simp [isCorrupt, hlab] at h1
      simpa using h1
    cases hH : labels.lookup HASH with
    | none => simp [classifyLoop, hlab, hH, hd]
    | some hash =>
      cases hT : labels.lookup TYPE with
      | none => simp [classifyLoop, hlab, hH, hT, hd]
      | some ts =>
        cases hF : SparkNodeType.fromStr ts with
        | none => simp [classifyLoop, hlab, hH, hT, hF, hd]
        | some nodeType0 =>
          cases hG : getHashedSelectors spec nodeType0 with
          | some hashed =>
            have hnin : (hashed.lookup hash).isSome = false := by
              simpa [stepClassifies, hlab, hH, hT, hF, hG] using hncls
            simp [classifyLoop, hlab, hH, hT, hF, hG, hnin, hd]
          | none =>
            simp [stepClassifies, hlab, hH, hT, hF, hG] at hncls

/-- C8: whenever the classification loop reaches a corrupt pod — all pods it
processed before continued without a delete — and the delete request for it
fails, the whole pass aborts with that error surfaced to the caller; the
classifier never continues past a failed deletion. -/
theorem delete_failure_aborts_pass {E : Type} (del : Pod → Except E Unit)
    (spec : SparkClusterSpec) (pods pre rest : List Pod) (p : Pod) (e : E)
    (hsplit : pods.reverse = pre ++ p :: rest)
    (hpre : ∀ q ∈ pre, stepContinues spec q = true)
    (hc : isCorrupt spec p = true) (hd : del p = .error e) :
    readExistingPodInformation del spec pods = .error (.client e) := by
  have key : ∀ pre2, (∀ q ∈ pre2, stepContinues spec q = true) →
      ∀ maps deleted, classifyLoop del spec (pre2 ++ p :: rest) maps deleted = .err e := by
    intro pre2
    induction pre2 with
    | nil =>
      intro _ maps deleted
      simpa using classifyLoop_corrupt_delete_error del spec p e hc hd rest maps deleted
    | cons q qs ih =>
      intro hq maps deleted
      obtain ⟨maps', hstep⟩ := classifyLoop_step_continues del spec q
        (hq q (by simp)) (qs ++ p :: rest) maps deleted
      rw [List.cons_append, hstep]
      exact ih (fun r hr => hq r (by simp [hr])) maps' deleted
  unfold readExistingPodInformation
  rw [hsplit, key pre hpre PodMaps.empty []]

/-- Witness for C8 at a concrete input: one pod missing its hash label, a
delete oracle that fails; the pass surfaces the client error. -/
theorem delete_failure_aborts_pass_witness :
    readExistingPodInformation failDelete specWithHistory [podMissingHash "a"]
      = .error (.client "boom") :=
  delete_failure_aborts_pass failDelete specWithHistory [podMissingHash "a"] [] []
    (podMissingHash "a") "boom" rfl (by simp) (by decide) rfl

/-- A pod of the history-server role whose hash appears in no desired key
set. -/
def podStaleHistory : Pod := sparkPod "x" "zzz" "history-server"

/-- C10: for an observed unit whose role tag parses but whose role has no
entry at all in the desired topology's key space, the stale-hash validation
is skipped entirely: the loop appends the unit to its (role, hash) bucket of
the classified inventory and continues, issuing no delete, whatever the
hash. -/
theorem role_absent_skips_hash_validation {E : Type} (del : Pod → Except E Unit)
    (spec : SparkClusterSpec) (pod : Pod) (labels : List (String × String))
    (hash ts : String) (nodeType : SparkNodeType)
    (hlab : pod.metadata.labels = some labels)
    (hH : labels.lookup HASH = some hash)
    (hT : labels.lookup TYPE = some ts)
    (hF : SparkNodeType.fromStr ts = some nodeType)
    (hG : getHashedSelectors spec nodeType = none)
    (rest : List Pod) (maps : PodMaps) (deleted : List Pod) :
    classifyLoop del spec (pod :: rest) maps deleted
        = classifyLoop del spec rest (maps.sortInto nodeType hash pod) deleted
    ∧ bucketOf (maps.sortInto nodeType hash pod) nodeType hash
        = bucketOf maps nodeType hash ++ [pod] := by
  constructor
  · simp [classifyLoop, hlab, hH, hT, hF, hG]
  · rw [bucketOf_sortInto]
    simp

/-- Witness for C10 at a concrete input: a history-server pod with an
arbitrary hash, in a spec with no history-server role; the failing delete
oracle is never consulted. -/
theorem role_absent_skips_hash_validation_witness :
    classifyLoop failDelete specWithoutHistory [podStaleHistory] PodMaps.empty []
        = classifyLoop failDelete specWithoutHistory []
            (PodMaps.empty.sortInto .historyServer "zzz" podStaleHistory) []
    ∧ bucketOf (PodMaps.empty.sortInto .historyServer "zzz" podStaleHistory)
          .historyServer "zzz"
        = bucketOf PodMaps.empty .historyServer "zzz" ++ [podStaleHistory] :=
  role_absent_skips_hash_validation failDelete specWithoutHistory podStaleHistory
    [(HASH, "zzz"), (TYPE, "history-server")] "zzz" "history-server" .historyServer
    rfl rfl rfl rfl rfl [] PodMaps.empty []

end SparkOperator
